import Mathlib

/-!
Verification of the drone build triggerer (`trigger/trigger.go`) and the
webhook sender (`plugin/webhook/webhook.go`).

Go strings are modelled as Lean `String`; `[]rune(s)` is `s.toList`
(a list of Unicode code points). Collaborator services (user store,
commit service, config service, build store, scheduler) are modelled as
an oracle environment `Env`; each invocation of the triggerer records
the collaborator calls it performs in a trace of `Call`s.
-/

namespace Drone

/-- Translation of the `trunc` helper of `trigger/trigger.go`:
`runes := []rune(s); if len(runes) > i { return string(runes[:i]) }; return s`. -/
def trunc (s : String) (i : Nat) : String :=
  let runes := s.toList
  if runes.length > i then String.mk (runes.take i) else s

/-- Modelled from the spec: a code point is "combining" (attaches to the
preceding base character to form one user-perceived character) when it lies
in the Unicode combining-diacritical-marks block U+0300–U+036F. This block
suffices to express grapheme clusters for the spec's grapheme-safety claim. -/
def isCombining (c : Char) : Bool :=
  decide (0x300 ≤ c.toNat ∧ c.toNat ≤ 0x36F)

/-- Helper for `graphemes`: accumulates the current (reversed) cluster. -/
def graphemesGo (cur : List Char) : List Char → List (List Char)
  | [] => [cur.reverse]
  | c :: rest =>
    if isCombining c then graphemesGo (c :: cur) rest
    else cur.reverse :: graphemesGo [c] rest

/-- Modelled from the spec: segmentation of a code-point sequence into
user-perceived characters (grapheme clusters); a combining mark joins the
cluster of the preceding character. -/
def graphemes : List Char → List (List Char)
  | [] => []
  | c :: rest => graphemesGo [c] rest

/-- Modelled from the spec: the number of user-perceived characters. -/
def graphemeCount (s : String) : Nat :=
  (graphemes s.toList).length

/-- Modelled from the spec: truncation of a string to at most `n`
user-perceived characters (grapheme clusters); keeps the first `n` whole
clusters, never splitting one. -/
def graphemeTrunc (s : String) (n : Nat) : String :=
  String.mk (((graphemes s.toList).take n).flatten)

/-- Sample string: 2000 copies of `a` followed by one combining acute
accent U+0301; it has 2001 code points but only 2000 user-perceived
characters (the last one being `a` + combining mark). -/
def graphemeSample : String :=
  String.mk (List.replicate 2000 'a' ++ [Char.ofNat 0x301])

/-! ## ASCII case folding and substring search

Modelled from the spec: `strings.EqualFold` (case-insensitive slug
comparison) and `strings.Contains` (skip-directive scan) are Go standard
library functions; the spec only requires case-insensitive matching, which
is modelled here by ASCII lowercasing. -/

def asciiLower (c : Char) : Char :=
  if 'A' ≤ c ∧ c ≤ 'Z' then Char.ofNat (c.toNat + 32) else c

def lowerStr (s : String) : String :=
  String.mk (s.toList.map asciiLower)

/-- Modelled from the spec: case-insensitive string equality
(`strings.EqualFold`). -/
def equalFold (a b : String) : Bool :=
  lowerStr a == lowerStr b

/-- Substring test over code-point lists (`strings.Contains`). -/
def containsSub : List Char → List Char → Bool
  | [], pat => pat.isEmpty
  | c :: t, pat => pat.isPrefixOf (c :: t) || containsSub t pat

/-! ## Glob matching and include/exclude conditions

Modelled from the spec: pipeline trigger constraints are include/exclude
lists matched with glob semantics (`*`, `?`, `[set]`) against the full
field (spec section 4.2). The matcher itself lives in the external
drone-yaml library, outside this repository's sources. -/

/-- Reads a character class from a pattern, returning the class body and
the rest of the pattern after the closing bracket. -/
def takeClass : List Char → Option (List Char × List Char)
  | [] => none
  | c :: rest =>
    if c = ']' then some ([], rest)
    else
      match takeClass rest with
      | none => none
      | some (cls, rem) => some (c :: cls, rem)

/-- Matches a character against the items of a class body, supporting
single characters and `a-b` ranges. -/
def classMatch : List Char → Char → Bool
  | a :: '-' :: b :: rest, c => (a ≤ c && c ≤ b) || classMatch rest c
  | a :: rest, c => (c == a) || classMatch rest c
  | [], _ => false

/-- Matches a character against a class body, honouring a leading `^`
negation. -/
def classMatches (cls : List Char) (c : Char) : Bool :=
  match cls with
  | '^' :: rest => !(classMatch rest c)
  | _ => classMatch cls c

/-- Glob matching of a pattern against a value, both as code-point lists:
`*` matches any run, `?` one character, `[set]` a character class. -/
def matchGlob (p s : List Char) : Bool :=
  match p, s with
  | [], [] => true
  | [], _ :: _ => false
  | '*' :: p', [] => matchGlob p' []
  | '*' :: p', c :: s' => matchGlob p' (c :: s') || matchGlob ('*' :: p') s'
  | '?' :: _, [] => false
  | '?' :: p', _ :: s' => matchGlob p' s'
  | '[' :: p', s =>
    (match h : takeClass p' with
     | none => false
     | some (cls, rem) =>
       match s with
       | [] => false
       | c :: s' => classMatches cls c && matchGlob rem s')
  | _ :: _, [] => false
  | x :: p', c :: s' => (x == c) && matchGlob p' s'
termination_by p.length + s.length
decreasing_by
  all_goals simp_wf
  all_goals try omega
  all_goals
    (have hlen : ∀ (q : List Char) cls rem,
        takeClass q = some (cls, rem) → rem.length < q.length := by
      intro q
      induction q with
      | nil => intro cls rem hq; simp [takeClass] at hq
      | cons c rest ih =>
        intro cls rem hq
        rw [takeClass] at hq
        by_cases hc : c = ']'
        · rw [if_pos hc] at hq
          cases hq
          simp
        · rw [if_neg hc] at hq
          cases hcl : takeClass rest with
          | none => rw [hcl] at hq; cases hq
          | some pr =>
            obtain ⟨cls', rem'⟩ := pr
            rw [hcl] at hq
            cases hq
            exact Nat.lt_succ_of_lt (ih _ _ hcl)
     have := hlen _ _ _ h
     omega)

def globMatch (pattern value : String) : Bool :=
  matchGlob pattern.toList value.toList

/-- Include/exclude constraint lists of one trigger axis (drone-yaml
`yaml.Condition`). -/
structure Condition where
  Include : List String
  Exclude : List String
deriving DecidableEq

/-- Modelled from the spec: the value matches some entry of the include
list (glob semantics). -/
def includes (c : Condition) (v : String) : Bool :=
  c.Include.any (fun pat => globMatch pat v)

/-- Modelled from the spec: the value matches some entry of the exclude
list (glob semantics). -/
def excludes (c : Condition) (v : String) : Bool :=
  c.Exclude.any (fun pat => globMatch pat v)

/-- Modelled from the spec: the include/exclude membership rule of spec
section 4.2, as implemented by drone-yaml `Condition.Match`: an excluded
value is rejected, an included value accepted, and an empty include list
accepts everything not excluded. -/
def condMatch (c : Condition) (v : String) : Bool :=
  if excludes c v then false
  else if includes c v then true
  else if c.Include.length = 0 then true
  else false

/-- Modelled from the spec: the event axis uses exact matching, not
globbing (spec section 4.2, `skipEvent` row). -/
def condMatchExact (c : Condition) (v : String) : Bool :=
  if c.Exclude.any (fun x => x == v) then false
  else if c.Include.any (fun x => x == v) then true
  else if c.Include.length = 0 then true
  else false

/-! ## Data model

Field layouts follow the Go structures of `core` and drone-yaml as used by
`trigger/trigger.go`; 64-bit integers are modelled as `Int`, Unix
timestamps as `Int`. -/

/-- Status constants of the `core` package. -/
def statusSkipped : String := "skipped"

def statusBlocked : String := "blocked"

def statusWaiting : String := "waiting_on_dependencies"

def statusPending : String := "pending"

def statusPassing : String := "success"

def statusFailing : String := "failure"

def statusError : String := "error"

/-- Event and trigger constants of the `core` package. -/
def eventPullRequest : String := "pull_request"

def triggerHook : String := "@hook"

def webhookEventBuild : String := "build"

def webhookActionCreated : String := "created"

structure Repository where
  ID : Int
  UserID : Int
  Slug : String
  Config : String
  Trusted : Bool
  Protected : Bool
  Secret : String
  IgnorePulls : Bool
  IgnoreForks : Bool
  Counter : Int
deriving DecidableEq

structure User where
  ID : Int
  Active : Bool
deriving DecidableEq

structure Commit where
  Message : String
  AuthorName : String
  AuthorEmail : String
  AuthorAvatar : String
deriving DecidableEq

structure Hook where
  Trigger : String
  Parent : Int
  Event : String
  Action : String
  Link : String
  Title : String
  Message : String
  Before : String
  After : String
  Ref : String
  Fork : String
  Source : String
  Target : String
  Author : String
  AuthorName : String
  AuthorEmail : String
  AuthorAvatar : String
  Params : List (String × String)
  Deployment : String
  Sender : String
deriving DecidableEq

structure Build where
  RepoID : Int
  Trigger : String
  Number : Int
  Parent : Int
  Status : String
  Error : String
  Event : String
  Action : String
  Link : String
  Title : String
  Message : String
  Before : String
  After : String
  Ref : String
  Fork : String
  Source : String
  Target : String
  Author : String
  AuthorName : String
  AuthorEmail : String
  AuthorAvatar : String
  Params : List (String × String)
  Deploy : String
  Sender : String
  Created : Int
  Updated : Int
  Finished : Int
deriving DecidableEq

structure Stage where
  RepoID : Int
  Number : Int
  Name : String
  Kind : String
  Type' : String
  OS : String
  Arch : String
  Variant : String
  Kernel : String
  Limit : Int
  Status : String
  DependsOn : List String
  OnSuccess : Bool
  OnFailure : Bool
  Labels : List (String × String)
  Created : Int
  Updated : Int
deriving DecidableEq

structure Platform where
  OS : String
  Arch : String
  Variant : String
  Version : String
deriving DecidableEq

structure Concurrency where
  Limit : Int
deriving DecidableEq

/-- Trigger constraints of a pipeline (drone-yaml `yaml.Conditions`),
restricted to the axes read by the triggerer. -/
structure Conditions where
  Branch : Condition
  Event : Condition
  Ref : Condition
  Repo : Condition
  Target : Condition
  Status : Condition
deriving DecidableEq

structure Pipeline where
  Name : String
  Platform : Platform
  Concurrency : Concurrency
  DependsOn : List String
  Node : List (String × String)
  Trigger : Conditions
deriving DecidableEq

/-- Heterogeneous manifest resource: a pipeline or any other resource
kind (the triggerer only down-selects the pipeline variant). -/
inductive Resource where
  | pipeline (p : Pipeline)
  | other
deriving DecidableEq

structure Manifest where
  Resources : List Resource
deriving DecidableEq

/-! ## Skip predicates

Modelled from the spec: the `skipMessage`/`skipBranch`/`skipEvent`/
`skipRef`/`skipRepo`/`skipTarget` helpers live in the repository's
`trigger/skip.go`, which is not among the provided sources; they are
modelled from spec sections 4.1 and 4.2. -/

/-- Modelled from the spec: scans the hook's commit message (or title, if
the message is empty) case-insensitively for a directive token, either
"[ci skip]" or "[skip ci]", appearing anywhere in the text. -/
def skipMessage (h : Hook) : Bool :=
  let text := if h.Message = "" then h.Title else h.Message
  let l := (lowerStr text).toList
  containsSub l "[ci skip]".toList || containsSub l "[skip ci]".toList

def skipBranch (p : Pipeline) (branch : String) : Bool :=
  !(condMatch p.Trigger.Branch branch)

def skipEvent (p : Pipeline) (event : String) : Bool :=
  !(condMatchExact p.Trigger.Event event)

def skipRef (p : Pipeline) (ref : String) : Bool :=
  !(condMatch p.Trigger.Ref ref)

def skipRepo (p : Pipeline) (slug : String) : Bool :=
  !(condMatch p.Trigger.Repo slug)

def skipTarget (p : Pipeline) (target : String) : Bool :=
  !(condMatch p.Trigger.Target target)

/-! ## Collaborator environment and call trace

Each collaborator of the triggerer is modelled as a deterministic oracle
fixed for one invocation. Results of the non-fatal status and webhook
sends do not influence control flow (they are only logged in Go), so only
the fact of the call is traced. `Now` models `time.Now().Unix()`. -/

structure Env where
  FindUser : Except String User
  FindCommit : Except String (Option Commit)
  FindConfig : Except String String
  Convert : String → Except String String
  Parse : String → Except String Manifest
  Lint : Manifest → Bool → Option String
  Verify : String → String → Bool
  Increment : Repository → Except String Repository
  Create : Build → List Stage → Option String
  Schedule : Stage → Option String
  Now : Int

/-- Observable collaborator calls of one triggerer invocation. -/
inductive Call where
  | userFind
  | commitFind
  | configFind
  | increment
  | buildCreate (b : Build) (stages : List Stage)
  | statusSend
  | schedule (s : Stage)
  | webhookSend
deriving DecidableEq

/-- Return type of the triggerer: the Go pair `(*core.Build, error)`
together with the trace of collaborator calls performed. -/
abbrev TriggerResult : Type := Option Build × Option String × List Call

/-- Translation of the commit-enrichment block of `Trigger` (lines
114–131): when the message is empty and an after-commit is present, the
commit service is consulted and blank fields are filled in. -/
def enrich (env : Env) (base : Hook) : Hook × List Call :=
  if base.Message = "" ∧ base.After ≠ "" then
    match env.FindCommit with
    | .ok (some c) =>
      let b := { base with Message := c.Message }
      let b := if b.AuthorEmail = "" then { b with AuthorEmail := c.AuthorEmail } else b
      let b := if b.AuthorName = "" then { b with AuthorName := c.AuthorName } else b
      let b := if b.AuthorAvatar = "" then { b with AuthorAvatar := c.AuthorAvatar } else b
      (b, [Call.commitFind])
    | _ => (base, [Call.commitFind])
  else (base, [])

/-- Translation of the build-record construction of `Trigger` (lines
288–315). -/
def mkBuild (repo : Repository) (base : Hook) (now : Int) : Build :=
  { RepoID := repo.ID
    Trigger := base.Trigger
    Number := repo.Counter
    Parent := base.Parent
    Status := statusPending
    Error := ""
    Event := base.Event
    Action := base.Action
    Link := base.Link
    Title := trunc base.Title 2000
    Message := trunc base.Message 2000
    Before := base.Before
    After := base.After
    Ref := base.Ref
    Fork := base.Fork
    Source := base.Source
    Target := base.Target
    Author := base.Author
    AuthorName := base.AuthorName
    AuthorEmail := base.AuthorEmail
    AuthorAvatar := base.AuthorAvatar
    Params := base.Params
    Deploy := base.Deployment
    Sender := base.Sender
    Created := now
    Updated := now
    Finished := 0 }

/-- Translation of the three defaulting statements of `Trigger` (lines
345–354): blank OS, arch and name fall back to "linux", "amd64" and
"default". -/
def stageDefaults (stage : Stage) : Stage :=
  let stage := if stage.OS = "" then { stage with OS := "linux" } else stage
  let stage := if stage.Arch = "" then { stage with Arch := "amd64" } else stage
  let stage := if stage.Name = "" then { stage with Name := "default" } else stage
  stage

/-- Translation of the stage construction of `Trigger` (lines 317–361)
for the pipeline at zero-based index `i` of the matched list. -/
def mkStage (repoID : Int) (verified : Bool) (now : Int) (i : Nat)
    (p : Pipeline) : Stage :=
  let onSuccess := condMatch p.Trigger.Status statusPassing
  let onFailure := condMatch p.Trigger.Status statusFailing
  let onFailure :=
    if p.Trigger.Status.Include.length + p.Trigger.Status.Exclude.length = 0
    then false else onFailure
  let stage : Stage :=
    { RepoID := repoID
      Number := (i : Int) + 1
      Name := p.Name
      Kind := ""
      Type' := ""
      OS := p.Platform.OS
      Arch := p.Platform.Arch
      Variant := p.Platform.Variant
      Kernel := p.Platform.Version
      Limit := p.Concurrency.Limit
      Status := statusWaiting
      DependsOn := p.DependsOn
      OnSuccess := onSuccess
      OnFailure := onFailure
      Labels := p.Node
      Created := now
      Updated := now }
  let stage := stageDefaults stage
  if verified = false then { stage with Status := statusBlocked }
  else if stage.DependsOn.length = 0 then { stage with Status := statusPending }
  else stage

/-- Indexed map used to number stages: the Go loop `for i, match := range
matched`. -/
def mapIdxFrom (f : Nat → Pipeline → Stage) : Nat → List Pipeline → List Stage
  | _, [] => []
  | i, p :: rest => f i p :: mapIdxFrom f (i + 1) rest

/-- Builds the build record and its stage records from the matched
pipelines, as `Trigger` does after the counter increment. -/
def assemble (verified : Bool) (repo : Repository) (base : Hook)
    (matched : List Pipeline) (now : Int) : Build × List Stage :=
  (mkBuild repo base now, mapIdxFrom (mkStage repo.ID verified now) 0 matched)

/-- Translation of the pipeline-selection loop of `Trigger` (lines
235–274): non-pipeline resources are passed over, and a pipeline is kept
iff every skip predicate keeps it. -/
def matchedPipelines (repo : Repository) (base : Hook) (m : Manifest) :
    List Pipeline :=
  m.Resources.filterMap (fun r =>
    match r with
    | .pipeline p =>
      if skipBranch p base.Target then none
      else if skipEvent p base.Event then none
      else if skipRef p base.Ref then none
      else if skipRepo p repo.Slug then none
      else if skipTarget p base.Deployment then none
      else some p
    | .other => none)

/-- Translation of the scheduling loop of `Trigger` (lines 379–392):
stages with dependencies or blocked status are passed over; the first
enqueue failure aborts the loop. Returns the schedule calls made and the
first error. -/
def scheduleAll (env : Env) : List Stage → List Call × Option String
  | [] => ([], none)
  | s :: rest =>
    if s.DependsOn.length ≠ 0 then scheduleAll env rest
    else if s.Status = statusBlocked then scheduleAll env rest
    else
      match env.Schedule s with
      | some e => ([Call.schedule s], some e)
      | none =>
        let r := scheduleAll env rest
        (Call.schedule s :: r.1, r.2)

/-- Translation of the error build constructed by `createBuildError`
(lines 441–468); note it does not truncate title or message and leaves
`Trigger` and `Params` at their zero values. -/
def errBuild (repo : Repository) (base : Hook) (message : String)
    (now : Int) : Build :=
  { RepoID := repo.ID
    Trigger := ""
    Number := repo.Counter
    Parent := base.Parent
    Status := statusError
    Error := message
    Event := base.Event
    Action := base.Action
    Link := base.Link
    Title := base.Title
    Message := base.Message
    Before := base.Before
    After := base.After
    Ref := base.Ref
    Fork := base.Fork
    Source := base.Source
    Target := base.Target
    Author := base.Author
    AuthorName := base.AuthorName
    AuthorEmail := base.AuthorEmail
    AuthorAvatar := base.AuthorAvatar
    Params := []
    Deploy := base.Deployment
    Sender := base.Sender
    Created := now
    Updated := now
    Finished := now }

/-- Translation of `createBuildError` (lines 435–472): increments the
counter, persists an error build with no stages, and returns the build
together with the store's error (nil on success). -/
def createBuildError (env : Env) (repo : Repository) (base : Hook)
    (message : String) : TriggerResult :=
  match env.Increment repo with
  | .error e => (none, some e, [Call.increment])
  | .ok repo' =>
    let b := errBuild repo' base message env.Now
    (some b, env.Create b [], [Call.increment, Call.buildCreate b []])

/-- Translation of the `Trigger` entry point of `trigger/trigger.go`:
hook gating, owner lookup, commit enrichment, config fetch, legacy
conversion, parse, lint, signature verification, pipeline selection,
counter increment, assembly, persistence, status send, scheduling and
webhook send, with the error handling of the source. -/
def trigger (env : Env) (repo : Repository) (base : Hook) : TriggerResult :=
  if skipMessage base then (none, none, [])
  else if base.Event = eventPullRequest ∧ repo.IgnorePulls then (none, none, [])
  else if base.Event = eventPullRequest ∧ repo.IgnoreForks
      ∧ ¬ equalFold base.Fork repo.Slug then (none, none, [])
  else
    match env.FindUser with
    | .error e => (none, some e, [Call.userFind])
    | .ok user =>
      if user.Active = false then (none, none, [Call.userFind])
      else
        let eb := enrich env base
        let base := eb.1
        let t0 := Call.userFind :: eb.2
        match env.FindConfig with
        | .error e => (none, some e, t0 ++ [Call.configFind])
        | .ok raw =>
          match env.Convert raw with
          | .error e => (none, some e, t0 ++ [Call.configFind])
          | .ok data =>
            match env.Parse data with
            | .error e =>
              let r := createBuildError env repo base e
              (r.1, r.2.1, t0 ++ [Call.configFind] ++ r.2.2)
            | .ok manifest =>
              match env.Lint manifest repo.Trusted with
              | some e =>
                let r := createBuildError env repo base e
                (r.1, r.2.1, t0 ++ [Call.configFind] ++ r.2.2)
              | none =>
                let verified :=
                  if repo.Protected ∧ base.Trigger = triggerHook
                  then env.Verify data repo.Secret else true
                let matched := matchedPipelines repo base manifest
                if matched.length = 0 then
                  (none, none, t0 ++ [Call.configFind])
                else
                  match env.Increment repo with
                  | .error e =>
                    (none, some e, t0 ++ [Call.configFind, Call.increment])
                  | .ok repo' =>
                    let bs := assemble verified repo' base matched env.Now
                    let t1 := t0 ++ [Call.configFind, Call.increment]
                    match env.Create bs.1 bs.2 with
                    | some e =>
                      (none, some e, t1 ++ [Call.buildCreate bs.1 bs.2])
                    | none =>
                      let t2 := t1 ++ [Call.buildCreate bs.1 bs.2, Call.statusSend]
                      let sr := scheduleAll env bs.2
                      match sr.2 with
                      | some e => (none, some e, t2 ++ sr.1)
                      | none => (some bs.1, none, t2 ++ sr.1 ++ [Call.webhookSend])

/-! ## Webhook sender (`plugin/webhook/webhook.go`) -/

/-- Configuration of the webhook sender (the `sender` struct). -/
structure Sender where
  Endpoints : List String
  Secret : String

/-- Translation of the endpoint loop of `sender.Send`: posts to each
endpoint in list order via `post` (modelling the per-endpoint `s.send`),
returns the endpoints actually attempted and the first error, stopping at
the first failure. -/
def sendAll (post : String → Option String) :
    List String → List String × Option String
  | [] => ([], none)
  | e :: rest =>
    match post e with
    | some err => ([e], some err)
    | none =>
      let r := sendAll post rest
      (e :: r.1, r.2)

/-- Translation of `sender.Send` (lines 50–63): an empty endpoint list
returns nil immediately, making no HTTP request; otherwise the payload is
posted to the endpoints in list order. -/
def senderSend (post : String → Option String) (s : Sender) :
    List String × Option String :=
  if s.Endpoints.length = 0 then ([], none)
  else sendAll post s.Endpoints

/-! ## Concrete witness fixtures -/

def condEmpty : Condition := { Include := [], Exclude := [] }

def condsEmpty : Conditions :=
  { Branch := condEmpty, Event := condEmpty, Ref := condEmpty,
    Repo := condEmpty, Target := condEmpty, Status := condEmpty }

def pipeW : Pipeline :=
  { Name := "build"
    Platform := { OS := "", Arch := "", Variant := "", Version := "" }
    Concurrency := { Limit := 0 }
    DependsOn := [], Node := [], Trigger := condsEmpty }

def pipeDepW : Pipeline := { pipeW with Name := "deploy", DependsOn := ["build"] }

def repoW : Repository :=
  { ID := 1, UserID := 7, Slug := "octocat/hello", Config := ".drone.yml",
    Trusted := false, Protected := false, Secret := "s3cret",
    IgnorePulls := false, IgnoreForks := false, Counter := 41 }

def hookW : Hook :=
  { Trigger := "@hook", Parent := 0, Event := "push", Action := "",
    Link := "", Title := "t", Message := "m", Before := "b1", After := "a1",
    Ref := "refs/heads/master", Fork := "", Source := "master",
    Target := "master", Author := "octocat", AuthorName := "Octo",
    AuthorEmail := "o@x.io", AuthorAvatar := "", Params := [],
    Deployment := "", Sender := "octocat" }

def userW : User := { ID := 7, Active := true }

def manifestW : Manifest := { Resources := [.pipeline pipeW, .pipeline pipeDepW] }

def envW : Env :=
  { FindUser := .ok userW
    FindCommit := .ok none
    FindConfig := .ok "raw"
    Convert := fun s => .ok s
    Parse := fun _ => .ok manifestW
    Lint := fun _ _ => none
    Verify := fun _ _ => true
    Increment := fun r => .ok { r with Counter := r.Counter + 1 }
    Create := fun _ _ => none
    Schedule := fun _ => none
    Now := 1700000000 }

def repoW2 : Repository := { repoW with Counter := 42 }

def buildW : Build := (assemble true repoW2 hookW [pipeW, pipeDepW] envW.Now).1

def stagesW : List Stage := (assemble true repoW2 hookW [pipeW, pipeDepW] envW.Now).2

def stage1W : Stage := mkStage repoW2.ID true envW.Now 0 pipeW

def traceW : List Call :=
  [Call.userFind, Call.configFind, Call.increment,
   Call.buildCreate buildW stagesW, Call.statusSend,
   Call.schedule stage1W, Call.webhookSend]

def envErrW : Env := { envW with Parse := fun _ => .error "yaml: parse error" }

def pipeTagW : Pipeline :=
  { pipeW with Trigger :=
    { condsEmpty with Event := { Include := ["tag"], Exclude := [] } } }

def envNoMatchW : Env :=
  { envW with Parse := fun _ => .ok { Resources := [.pipeline pipeTagW] } }

def hookSkipW : Hook := { hookW with Message := "update readme [CI SKIP]" }

def hookPRW : Hook := { hookW with Event := "pull_request", Fork := "somefork/hello" }

def repoPullsW : Repository := { repoW with IgnorePulls := true }

def repoForksW : Repository := { repoW with IgnoreForks := true }

def userInactiveW : User := { ID := 7, Active := false }

def envInactiveW : Env := { envW with FindUser := .ok userInactiveW }

def condFailW : Condition := { Include := ["failure"], Exclude := [] }

def pipeFailW : Pipeline := { pipeW with Trigger := { condsEmpty with Status := condFailW } }

def postW : String → Option String :=
  fun e => if e = "https://b.example" then some "connection refused" else none

def senderW : Sender :=
  { Endpoints := ["https://a.example", "https://b.example", "https://c.example"],
    Secret := "hmac" }

/-! ## Theorems -/

theorem trunc_toList (s : String) (i : Nat) :
    (trunc s i).toList = s.toList.take i := by
  show (if s.toList.length > i then String.mk (s.toList.take i) else s).toList
      = s.toList.take i
  by_cases h : s.toList.length > i
  · rw [if_pos h]
    rfl
  · rw [if_neg h]
    exact (List.take_of_length_le (Nat.le_of_not_lt h)).symm

theorem trunc_length_le (s : String) (i : Nat) :
    (trunc s i).toList.length ≤ i := by
  rw [trunc_toList]
  exact (List.length_take i s.toList).le.trans (Nat.min_le_left _ _)

theorem graphemesGo_flatten (cur : List Char) (l : List Char) :
    (graphemesGo cur l).flatten = cur.reverse ++ l := by
  induction l generalizing cur with
  | nil => simp [graphemesGo]
  | cons c rest ih =>
    rw [graphemesGo]
    by_cases h : isCombining c
    · rw [if_pos h, ih]
      simp
    · rw [if_neg h]
      rw [List.flatten_cons, ih [c]]
      simp

theorem graphemes_flatten (l : List Char) : (graphemes l).flatten = l := by
  cases l with
  | nil => rfl
  | cons c rest =>
    rw [show graphemes (c :: rest) = graphemesGo [c] rest from rfl]
    rw [graphemesGo_flatten]
    rfl

theorem graphemesGo_append_singleton (cur : List Char) (k : Nat) (a m : Char)
    (ha : isCombining a = false) (hm : isCombining m = true) :
    graphemesGo cur (List.replicate (k + 1) a ++ [m]) =
      cur.reverse :: (List.replicate k [a] ++ [[a, m]]) := by
  induction k generalizing cur with
  | zero =>
    rw [show List.replicate 1 a ++ [m] = a :: [m] from rfl]
    rw [graphemesGo, if_neg (by simp [ha])]
    rw [graphemesGo, if_pos (by simp [hm])]
    rfl
  | succ k ih =>
    rw [List.replicate_succ, List.cons_append]
    rw [graphemesGo, if_neg (by simp [ha])]
    rw [ih [a]]
    simp [List.replicate_succ]

theorem graphemeSample_toList :
    graphemeSample.toList = List.replicate 2000 'a' ++ [Char.ofNat 0x301] := rfl

theorem graphemeSample_graphemes :
    graphemes graphemeSample.toList =
      ['a'].reverse :: (List.replicate 1998 ['a'] ++ [['a', Char.ofNat 0x301]]) := by
  rw [graphemeSample_toList]
  rw [show (2000 : Nat) = 1999 + 1 from rfl, List.replicate_succ, List.cons_append]
  rw [show graphemes ('a' :: (List.replicate 1999 'a' ++ [Char.ofNat 0x301]))
      = graphemesGo ['a'] (List.replicate 1999 'a' ++ [Char.ofNat 0x301]) from rfl]
  rw [show (1999 : Nat) = 1998 + 1 from rfl]
  exact graphemesGo_append_singleton ['a'] 1998 'a' (Char.ofNat 0x301)
    (by decide) (by decide)

theorem graphemeSample_count : graphemeCount graphemeSample = 2000 := by
  unfold graphemeCount
  rw [graphemeSample_graphemes]
  simp only [List.length_cons, List.length_append, List.length_replicate,
    List.length_singleton, List.length_nil]

theorem takeClass_length :
    ∀ p cls rem, takeClass p = some (cls, rem) → rem.length < p.length := by
  intro p
  induction p with
  | nil => intro cls rem h; simp [takeClass] at h
  | cons c rest ih =>
    intro cls rem h
    rw [takeClass] at h
    by_cases hc : c = ']'
    · rw [if_pos hc] at h
      cases h
      simp
    · rw [if_neg hc] at h
      cases hcl : takeClass rest with
      | none => rw [hcl] at h; cases h
      | some pr =>
        obtain ⟨cls', rem'⟩ := pr
        rw [hcl] at h
        cases h
        exact Nat.lt_succ_of_lt (ih _ _ hcl)

/-! ## Helper lemmas -/

theorem trunc_of_le (s : String) (i : Nat) (h : s.toList.length ≤ i) :
    trunc s i = s := by
  show (if s.toList.length > i then String.mk (s.toList.take i) else s) = s
  rw [if_neg (Nat.not_lt.mpr h)]

theorem stageDefaults_status (st : Stage) :
    (stageDefaults st).Status = st.Status := by
  unfold stageDefaults
  dsimp only
  split_ifs <;> rfl

theorem stageDefaults_dependsOn (st : Stage) :
    (stageDefaults st).DependsOn = st.DependsOn := by
  unfold stageDefaults
  dsimp only
  split_ifs <;> rfl

theorem stageDefaults_onSuccess (st : Stage) :
    (stageDefaults st).OnSuccess = st.OnSuccess := by
  unfold stageDefaults
  dsimp only
  split_ifs <;> rfl

theorem stageDefaults_onFailure (st : Stage) :
    (stageDefaults st).OnFailure = st.OnFailure := by
  unfold stageDefaults
  dsimp only
  split_ifs <;> rfl

theorem mkStage_status (repoID : Int) (verified : Bool) (now : Int) (i : Nat)
    (p : Pipeline) :
    (mkStage repoID verified now i p).Status =
      if verified = false then statusBlocked
      else if p.DependsOn = [] then statusPending
      else statusWaiting := by
  unfold mkStage
  dsimp only
  by_cases hv : verified = false
  · rw [if_pos hv, if_pos hv]
  · rw [if_neg hv, if_neg hv, stageDefaults_dependsOn]
    dsimp only
    by_cases hd : p.DependsOn = []
    · rw [if_pos hd, if_pos (by rw [hd]; rfl)]
    · rw [if_neg hd, if_neg (fun hl => hd (List.length_eq_zero.mp hl))]
      rw [stageDefaults_status]

theorem mkStage_dependsOn (repoID : Int) (verified : Bool) (now : Int) (i : Nat)
    (p : Pipeline) :
    (mkStage repoID verified now i p).DependsOn = p.DependsOn := by
  unfold mkStage
  dsimp only
  split_ifs <;> rw [stageDefaults_dependsOn]

theorem mem_mapIdxFrom (f : Nat → Pipeline → Stage) :
    ∀ (n : Nat) (l : List Pipeline) (st : Stage), st ∈ mapIdxFrom f n l →
      ∃ i p, p ∈ l ∧ st = f i p := by
  intro n l
  induction l generalizing n with
  | nil => intro st h; cases h
  | cons p rest ih =>
    intro st h
    rw [mapIdxFrom] at h
    rcases List.mem_cons.mp h with h1 | h2
    · exact ⟨n, p, List.mem_cons_self _ _, h1⟩
    · obtain ⟨i, q, hq, he⟩ := ih (n + 1) st h2
      exact ⟨i, q, List.mem_cons_of_mem _ hq, he⟩

theorem assemble_status (verified : Bool) (repo : Repository) (base : Hook)
    (matched : List Pipeline) (now : Int) (st : Stage)
    (hst : st ∈ (assemble verified repo base matched now).2) :
    st.Status =
      if verified = false then statusBlocked
      else if st.DependsOn = [] then statusPending
      else statusWaiting := by
  obtain ⟨i, p, _, he⟩ := mem_mapIdxFrom (mkStage repo.ID verified now) 0 matched st hst
  subst he
  rw [mkStage_status, mkStage_dependsOn]

theorem assemble_pending_iff (v : Bool) (r : Repository) (b0 : Hook)
    (m : List Pipeline) (n : Int) (s : Stage)
    (hs : s ∈ (assemble v r b0 m n).2) :
    (s.DependsOn = [] ∧ s.Status ≠ statusBlocked) ↔
      (s.Status = statusPending ∧ s.DependsOn = []) := by
  have hst := assemble_status v r b0 m n s hs
  constructor
  · rintro ⟨hd, hnb⟩
    refine ⟨?_, hd⟩
    by_cases hv : v = false
    · rw [if_pos hv] at hst
      exact absurd hst hnb
    · rw [if_neg hv, if_pos hd] at hst
      exact hst
  · rintro ⟨hp, hd⟩
    refine ⟨hd, ?_⟩
    rw [hp]
    decide

/-! ## C8: truncation is idempotent -/

/-- C8: applying the 2000-unit truncation to an already-truncated string
returns it unchanged: trunc (trunc s 2000) 2000 = trunc s 2000. -/
theorem trunc_idempotent (s : String) :
    trunc (trunc s 2000) 2000 = trunc s 2000 :=
  trunc_of_le _ _ (trunc_length_le s 2000)

/-! ## C4: truncation counts code points, not grapheme clusters -/

/-- C4 counterexample: on a string of 2001 code points forming exactly
2000 grapheme clusters (the last cluster being a letter plus a combining
accent), grapheme-aware truncation at 2000 would return the string
unchanged, but `trunc` drops the combining mark, splitting the final
grapheme cluster. -/
theorem trunc_splits_grapheme_cluster :
    graphemeCount graphemeSample = 2000 ∧
    graphemeTrunc graphemeSample 2000 = graphemeSample ∧
    trunc graphemeSample 2000 ≠ graphemeSample ∧
    trunc graphemeSample 2000 ≠ graphemeTrunc graphemeSample 2000 := by
  have hlen : graphemeSample.toList.length = 2001 := by
    rw [graphemeSample_toList]
    simp only [List.length_append, List.length_replicate, List.length_singleton]
  have hgt : graphemeTrunc graphemeSample 2000 = graphemeSample := by
    unfold graphemeTrunc
    have hcount : (graphemes graphemeSample.toList).length = 2000 :=
      graphemeSample_count
    rw [List.take_of_length_le (le_of_eq hcount), graphemes_flatten]
    rfl
  have hne : trunc graphemeSample 2000 ≠ graphemeSample := by
    intro heq
    have hl := congrArg (fun t => t.toList.length) heq
    simp only [trunc_toList, List.length_take, hlen] at hl
    omega
  refine ⟨graphemeSample_count, hgt, hne, ?_⟩
  rw [hgt]
  exact hne

/-- C4 (amended): for every hook, the build's title and message are the
hook's title and message truncated to at most 2000 code points (runes);
the truncation keeps a code-point prefix, so it never splits a code
point's byte encoding, but it counts code points rather than grapheme
clusters and can split a combining-character sequence. -/
theorem trunc_counts_code_points (repo : Repository) (base : Hook) (now : Int) :
    (mkBuild repo base now).Title = trunc base.Title 2000 ∧
    (mkBuild repo base now).Message = trunc base.Message 2000 ∧
    (∀ s : String, (trunc s 2000).toList = s.toList.take 2000) ∧
    (∀ s : String, (trunc s 2000).toList.length ≤ 2000) :=
  ⟨rfl, rfl, fun s => trunc_toList s 2000, fun s => trunc_length_le s 2000⟩

/-! ## C1: initial stage status -/

/-- C1: for every build assembled by the main trigger path, each stage's
initial status is Blocked if signature verification failed, otherwise
Pending if and only if its DependsOn list is empty, otherwise Waiting. -/
theorem stage_initial_status_spec (verified : Bool) (repo : Repository)
    (base : Hook) (matched : List Pipeline) (now : Int) (st : Stage)
    (hst : st ∈ (assemble verified repo base matched now).2) :
    st.Status =
      if verified = false then statusBlocked
      else if st.DependsOn = [] then statusPending
      else statusWaiting :=
  assemble_status verified repo base matched now st hst

/-! ## C7: on-success and on-failure flags -/

theorem mkStage_onSuccess (repoID : Int) (verified : Bool) (now : Int) (i : Nat)
    (p : Pipeline) :
    (mkStage repoID verified now i p).OnSuccess =
      condMatch p.Trigger.Status statusPassing := by
  unfold mkStage
  dsimp only
  split_ifs <;> rw [stageDefaults_onSuccess]

theorem mkStage_onFailure (repoID : Int) (verified : Bool) (now : Int) (i : Nat)
    (p : Pipeline) :
    (mkStage repoID verified now i p).OnFailure =
      (if p.Trigger.Status.Include.length + p.Trigger.Status.Exclude.length = 0
       then false else condMatch p.Trigger.Status statusFailing) := by
  unfold mkStage
  dsimp only
  split_ifs <;> rw [stageDefaults_onFailure]

/-- C7: a produced stage's OnSuccess flag is true iff the pipeline's
trigger-status constraint includes "success" under the include/exclude
rule (which accepts everything when both lists are empty), and its
OnFailure flag is true iff the constraint includes "failure" and at least
one of the two lists is non-empty. -/
theorem stage_on_success_on_failure_flags (repoID : Int) (verified : Bool)
    (now : Int) (i : Nat) (p : Pipeline) :
    ((mkStage repoID verified now i p).OnSuccess = true ↔
      condMatch p.Trigger.Status statusPassing = true) ∧
    ((mkStage repoID verified now i p).OnFailure = true ↔
      (condMatch p.Trigger.Status statusFailing = true ∧
        (p.Trigger.Status.Include ≠ [] ∨ p.Trigger.Status.Exclude ≠ []))) ∧
    (p.Trigger.Status.Include = [] → p.Trigger.Status.Exclude = [] →
      condMatch p.Trigger.Status statusPassing = true) := by
  refine ⟨by rw [mkStage_onSuccess], ?_, ?_⟩
  · rw [mkStage_onFailure]
    by_cases h : p.Trigger.Status.Include.length + p.Trigger.Status.Exclude.length = 0
    · rw [if_pos h]
      simp only [add_eq_zero, List.length_eq_zero] at h
      simp [h.1, h.2]
    · rw [if_neg h]
      simp only [add_eq_zero, List.length_eq_zero, not_and_or] at h
      constructor
      · intro hm
        refine ⟨hm, ?_⟩
        rcases h with h | h
        · exact Or.inl h
        · exact Or.inr h
      · intro hm
        exact hm.1
  · intro h1 h2
    unfold condMatch includes excludes
    rw [h1, h2]
    rfl

/-! ## Trace lemmas -/

theorem enrich_calls (env : Env) (base : Hook) :
    ∀ c ∈ (enrich env base).2, c = Call.commitFind := by
  intro c hc
  unfold enrich at hc
  split at hc
  · split at hc
    · simpa using hc
    · simpa using hc
  · cases hc

theorem scheduleAll_calls (env : Env) :
    ∀ (stages : List Stage) (c : Call), c ∈ (scheduleAll env stages).1 →
      ∃ s, c = Call.schedule s ∧ s ∈ stages := by
  intro stages
  induction stages with
  | nil => intro c h; cases h
  | cons s rest ih =>
    intro c h
    rw [scheduleAll] at h
    by_cases h1 : s.DependsOn.length ≠ 0
    · rw [if_pos h1] at h
      obtain ⟨s', he, hm⟩ := ih c h
      exact ⟨s', he, List.mem_cons_of_mem _ hm⟩
    · rw [if_neg h1] at h
      by_cases h2 : s.Status = statusBlocked
      · rw [if_pos h2] at h
        obtain ⟨s', he, hm⟩ := ih c h
        exact ⟨s', he, List.mem_cons_of_mem _ hm⟩
      · rw [if_neg h2] at h
        cases hs : env.Schedule s with
        | some e =>
          rw [hs] at h
          dsimp only at h
          rcases List.mem_singleton.mp h with h
          exact ⟨s, h, List.mem_cons_self _ _⟩
        | none =>
          rw [hs] at h
          dsimp only at h
          rcases List.mem_cons.mp h with h | h
          · exact ⟨s, h, List.mem_cons_self _ _⟩
          · obtain ⟨s', he, hm⟩ := ih c h
            exact ⟨s', he, List.mem_cons_of_mem _ hm⟩

theorem scheduleAll_mem_of_none (env : Env) :
    ∀ (stages : List Stage), (scheduleAll env stages).2 = none →
      ∀ s : Stage, (Call.schedule s ∈ (scheduleAll env stages).1 ↔
        (s ∈ stages ∧ s.DependsOn = [] ∧ s.Status ≠ statusBlocked)) := by
  intro stages
  induction stages with
  | nil =>
    intro _ s
    constructor
    · intro h; cases h
    · intro h; cases h.1
  | cons s0 rest ih =>
    intro hnone s
    rw [scheduleAll] at hnone ⊢
    by_cases h1 : s0.DependsOn.length ≠ 0
    · rw [if_pos h1] at hnone ⊢
      rw [ih hnone s]
      constructor
      · intro ⟨hm, hd, hb⟩
        exact ⟨List.mem_cons_of_mem _ hm, hd, hb⟩
      · intro ⟨hm, hd, hb⟩
        rcases List.mem_cons.mp hm with he | hm'
        · subst he
          exact absurd (by rw [hd]; rfl) h1
        · exact ⟨hm', hd, hb⟩
    · rw [if_neg h1] at hnone ⊢
      by_cases h2 : s0.Status = statusBlocked
      · rw [if_pos h2] at hnone ⊢
        rw [ih hnone s]
        constructor
        · intro ⟨hm, hd, hb⟩
          exact ⟨List.mem_cons_of_mem _ hm, hd, hb⟩
        · intro ⟨hm, hd, hb⟩
          rcases List.mem_cons.mp hm with he | hm'
          · subst he
            exact absurd h2 hb
          · exact ⟨hm', hd, hb⟩
      · rw [if_neg h2] at hnone ⊢
        cases hs : env.Schedule s0 with
        | some e =>
          rw [hs] at hnone
          cases hnone
        | none =>
          rw [hs] at hnone
          dsimp only at hnone ⊢
          constructor
          · intro h
            rcases List.mem_cons.mp h with he | hm
            · have hss : s = s0 := by injection he
              subst hss
              exact ⟨List.mem_cons_self _ _,
                List.length_eq_zero.mp (Nat.eq_zero_of_not_pos
                  (fun hp => h1 (Nat.pos_iff_ne_zero.mp hp))), h2⟩
            · obtain ⟨hm', hd, hb⟩ := (ih hnone s).mp hm
              exact ⟨List.mem_cons_of_mem _ hm', hd, hb⟩
          · intro ⟨hm, hd, hb⟩
            rcases List.mem_cons.mp hm with he | hm'
            · subst he
              exact List.mem_cons_self _ _
            · exact List.mem_cons_of_mem _ ((ih hnone s).mpr ⟨hm', hd, hb⟩)

/-! ## C6: hook-level gating -/

/-- C6: hook gating applies before any collaborator call (the trace is
empty): a skip directive yields (nil, nil); a pull-request on a repo
ignoring pulls yields (nil, nil); a pull-request on a repo ignoring forks
whose fork slug differs case-insensitively from the repo slug yields
(nil, nil). -/
theorem hook_gating_skips (env : Env) (repo : Repository) (base : Hook) :
    (skipMessage base = true → trigger env repo base = (none, none, [])) ∧
    (base.Event = eventPullRequest → repo.IgnorePulls = true →
      trigger env repo base = (none, none, [])) ∧
    (base.Event = eventPullRequest → repo.IgnoreForks = true →
      equalFold base.Fork repo.Slug = false →
      trigger env repo base = (none, none, [])) := by
  refine ⟨?_, ?_, ?_⟩
  · intro h
    unfold trigger
    rw [if_pos h]
  · intro h1 h2
    unfold trigger
    by_cases g1 : skipMessage base
    · rw [if_pos g1]
    · rw [if_neg g1, if_pos ⟨h1, h2⟩]
  · intro h1 h2 h3
    unfold trigger
    by_cases g1 : skipMessage base
    · rw [if_pos g1]
    · rw [if_neg g1]
      by_cases g2 : base.Event = eventPullRequest ∧ repo.IgnorePulls = true
      · rw [if_pos g2]
      · rw [if_neg g2, if_pos ⟨h1, h2, by simp [h3]⟩]

/-! ## C9: inactive repository owner -/

/-- C9: when the hook passes gating, the owner lookup succeeds and the
owner is inactive, the triggerer returns (nil, nil) having performed only
the owner lookup: no commit enrichment, no config fetch, no increment and
no persistence. -/
theorem inactive_owner_skips (env : Env) (repo : Repository) (base : Hook)
    (g1 : skipMessage base = false)
    (g2 : ¬ (base.Event = eventPullRequest ∧ repo.IgnorePulls = true))
    (g3 : ¬ (base.Event = eventPullRequest ∧ repo.IgnoreForks = true
      ∧ ¬ equalFold base.Fork repo.Slug))
    (user : User) (hu : env.FindUser = .ok user)
    (ha : user.Active = false) :
    trigger env repo base = (none, none, [Call.userFind]) := by
  unfold trigger
  rw [if_neg (by simp [g1]), if_neg g2, if_neg g3, hu]
  dsimp only
  rw [if_pos ha]

theorem pre_calls (env : Env) (base : Hook) (rest : List Call) :
    ∀ c ∈ (Call.userFind :: (enrich env base).2) ++ [Call.configFind] ++ rest,
      c = Call.userFind ∨ c = Call.commitFind ∨ c = Call.configFind ∨ c ∈ rest := by
  intro c hc
  rcases List.mem_append.mp hc with hc | hc
  · rcases List.mem_append.mp hc with hc | hc
    · rcases List.mem_cons.mp hc with hc | hc
      · exact Or.inl hc
      · exact Or.inr (Or.inl (enrich_calls env base c hc))
    · exact Or.inr (Or.inr (Or.inl (List.mem_singleton.mp hc)))
  · exact Or.inr (Or.inr (Or.inr hc))

/-! ## C5: empty matched set -/

/-- C5: when pipeline selection yields an empty matched set, the trigger
returns (nil, nil), and neither the repository counter increment nor the
build-store create is ever invoked. -/
theorem no_match_skips_without_increment (env : Env) (repo : Repository)
    (base : Hook)
    (g1 : skipMessage base = false)
    (g2 : ¬ (base.Event = eventPullRequest ∧ repo.IgnorePulls = true))
    (g3 : ¬ (base.Event = eventPullRequest ∧ repo.IgnoreForks = true
      ∧ ¬ equalFold base.Fork repo.Slug))
    (user : User) (hu : env.FindUser = .ok user) (ha : user.Active = true)
    (raw : String) (hcf : env.FindConfig = .ok raw)
    (data : String) (hcv : env.Convert raw = .ok data)
    (manifest : Manifest) (hp : env.Parse data = .ok manifest)
    (hl : env.Lint manifest repo.Trusted = none)
    (hm : matchedPipelines repo (enrich env base).1 manifest = []) :
    ∃ tr, trigger env repo base = (none, none, tr) ∧
      Call.increment ∉ tr ∧
      ∀ b st, Call.buildCreate b st ∉ tr := by
  refine ⟨(Call.userFind :: (enrich env base).2) ++ [Call.configFind], ?_, ?_, ?_⟩
  · unfold trigger
    rw [if_neg (by simp [g1]), if_neg g2, if_neg g3, hu]
    dsimp only
    rw [if_neg (by simp [ha])]
    try dsimp only
    rw [hcf]
    try dsimp only
    rw [hcv]
    try dsimp only
    rw [hp]
    try dsimp only
    rw [hl]
    try dsimp only
    rw [hm]
    rw [if_pos (show (List.length ([] : List Pipeline) = 0) from rfl)]
  · intro h
    rcases pre_calls env base [] Call.increment (by simpa using h) with h' | h' | h' | h'
    · cases h'
    · cases h'
    · cases h'
    · cases h'
  · intro b st h
    rcases pre_calls env base [] (Call.buildCreate b st) (by simpa using h)
      with h' | h' | h' | h'
    · cases h'
    · cases h'
    · cases h'
    · cases h'

/-! ## C3: parse or lint failure creates an error build -/

/-- C3: when parse or lint of the manifest fails, a build with status
Error, the failure message as its error, and Finished set is persisted
with no stages, no scheduling, status send or webhook occurs, and the
trigger returns the build with a nil error. -/
theorem config_failure_creates_error_build (env : Env) (repo : Repository)
    (base : Hook)
    (g1 : skipMessage base = false)
    (g2 : ¬ (base.Event = eventPullRequest ∧ repo.IgnorePulls = true))
    (g3 : ¬ (base.Event = eventPullRequest ∧ repo.IgnoreForks = true
      ∧ ¬ equalFold base.Fork repo.Slug))
    (user : User) (hu : env.FindUser = .ok user) (ha : user.Active = true)
    (raw : String) (hcf : env.FindConfig = .ok raw)
    (data : String) (hcv : env.Convert raw = .ok data)
    (m : String)
    (hfail : env.Parse data = .error m ∨
      (∃ manifest, env.Parse data = .ok manifest ∧
        env.Lint manifest repo.Trusted = some m))
    (repo' : Repository) (hinc : env.Increment repo = .ok repo')
    (hcr : env.Create (errBuild repo' (enrich env base).1 m env.Now) [] = none) :
    ∃ tr, trigger env repo base =
        (some (errBuild repo' (enrich env base).1 m env.Now), none, tr) ∧
      Call.buildCreate (errBuild repo' (enrich env base).1 m env.Now) [] ∈ tr ∧
      (∀ s, Call.schedule s ∉ tr) ∧
      Call.statusSend ∉ tr ∧
      Call.webhookSend ∉ tr ∧
      (errBuild repo' (enrich env base).1 m env.Now).Status = statusError ∧
      (errBuild repo' (enrich env base).1 m env.Now).Error = m ∧
      (errBuild repo' (enrich env base).1 m env.Now).Finished = env.Now := by
  refine ⟨(Call.userFind :: (enrich env base).2) ++ [Call.configFind]
    ++ [Call.increment,
        Call.buildCreate (errBuild repo' (enrich env base).1 m env.Now) []],
    ?_, ?_, ?_, ?_, ?_, rfl, rfl, rfl⟩
  · unfold trigger
    rw [if_neg (by simp [g1]), if_neg g2, if_neg g3, hu]
    dsimp only
    rw [if_neg (by simp [ha])]
    try dsimp only
    rw [hcf]
    try dsimp only
    rw [hcv]
    try dsimp only
    rcases hfail with hp | ⟨manifest, hp, hl⟩
    · rw [hp]
      try dsimp only
      unfold createBuildError
      rw [hinc]
      try dsimp only
      rw [hcr]
    · rw [hp]
      try dsimp only
      rw [hl]
      try dsimp only
      unfold createBuildError
      rw [hinc]
      try dsimp only
      rw [hcr]
  · simp
  · intro s h
    rcases pre_calls env base [Call.increment,
      Call.buildCreate (errBuild repo' (enrich env base).1 m env.Now) []]
      (Call.schedule s) h with h' | h' | h' | h'
    · cases h'
    · cases h'
    · cases h'
    · rcases List.mem_cons.mp h' with h'' | h''
      · cases h''
      · cases List.mem_singleton.mp h''
  · intro h
    rcases pre_calls env base [Call.increment,
      Call.buildCreate (errBuild repo' (enrich env base).1 m env.Now) []]
      Call.statusSend h with h' | h' | h' | h'
    · cases h'
    · cases h'
    · cases h'
    · rcases List.mem_cons.mp h' with h'' | h''
      · cases h''
      · cases List.mem_singleton.mp h''
  · intro h
    rcases pre_calls env base [Call.increment,
      Call.buildCreate (errBuild repo' (enrich env base).1 m env.Now) []]
      Call.webhookSend h with h' | h' | h' | h'
    · cases h'
    · cases h'
    · cases h'
    · rcases List.mem_cons.mp h' with h'' | h''
      · cases h''
      · cases List.mem_singleton.mp h''

/-! ## C2: exactly the pending dependency-free stages are enqueued -/

theorem errorPath_schedule_iff (env : Env) (repo : Repository) (base0 : Hook)
    (e : String) (b : Build) (tr : List Call) (pre : List Call)
    (hpre : ∀ c ∈ pre, c = Call.userFind ∨ c = Call.commitFind ∨ c = Call.configFind)
    (hres : ((createBuildError env repo base0 e).1,
        (createBuildError env repo base0 e).2.1,
        pre ++ (createBuildError env repo base0 e).2.2) = (some b, none, tr))
    (stages : List Stage) (bb : Build)
    (hbc : Call.buildCreate bb stages ∈ tr) (s : Stage) :
    Call.schedule s ∈ tr ↔
      (s ∈ stages ∧ s.Status = statusPending ∧ s.DependsOn = []) := by
  unfold createBuildError at hres
  split at hres
  · simp at hres
  · dsimp only at hres
    simp only [Prod.mk.injEq] at hres
    obtain ⟨hb, hcr, htr⟩ := hres
    subst htr
    have hstages : stages = [] := by
      rcases List.mem_append.mp hbc with hc | hc
      · rcases hpre _ hc with h' | h' | h' <;> cases h'
      · rcases List.mem_cons.mp hc with h' | h'
        · cases h'
        · have h'' := List.mem_singleton.mp h'
          injection h''
    subst hstages
    constructor
    · intro hsch
      rcases List.mem_append.mp hsch with hc | hc
      · rcases hpre _ hc with h' | h' | h' <;> cases h'
      · rcases List.mem_cons.mp hc with h' | h'
        · cases h'
        · cases List.mem_singleton.mp h'
    · intro hc
      cases hc.1

/-- C2: in a successful trigger invocation, the scheduler is invoked for
exactly those persisted stages whose initial status is Pending and whose
DependsOn list is empty; no other stage is enqueued. -/
theorem schedule_exactly_pending_stages (env : Env) (repo : Repository)
    (base : Hook) (b : Build) (tr : List Call)
    (hres : trigger env repo base = (some b, none, tr))
    (bb : Build) (stages : List Stage)
    (hbc : Call.buildCreate bb stages ∈ tr) (s : Stage) :
    Call.schedule s ∈ tr ↔
      (s ∈ stages ∧ s.Status = statusPending ∧ s.DependsOn = []) := by
  unfold trigger at hres
  dsimp only at hres
  split at hres
  · simp at hres
  split at hres
  · simp at hres
  split at hres
  · simp at hres
  split at hres
  · simp at hres
  split at hres
  · simp at hres
  split at hres
  · simp at hres
  split at hres
  · simp at hres
  split at hres
  · -- parse failure: the error-build path
    refine errorPath_schedule_iff env repo _ _ b tr _ ?_ hres stages bb hbc s
    intro c hc
    rcases List.mem_cons.mp hc with hc | hc
    · exact Or.inl hc
    rcases List.mem_append.mp hc with hc | hc
    · exact Or.inr (Or.inl (enrich_calls env base c hc))
    · exact Or.inr (Or.inr (List.mem_singleton.mp hc))
  split at hres
  · -- lint failure: the error-build path
    refine errorPath_schedule_iff env repo _ _ b tr _ ?_ hres stages bb hbc s
    intro c hc
    rcases List.mem_cons.mp hc with hc | hc
    · exact Or.inl hc
    rcases List.mem_append.mp hc with hc | hc
    · exact Or.inr (Or.inl (enrich_calls env base c hc))
    · exact Or.inr (Or.inr (List.mem_singleton.mp hc))
  split at hres
  · simp at hres
  split at hres
  · simp at hres
  split at hres
  · simp at hres
  split at hres
  · simp at hres
  -- main success path
  rename_i hsched
  simp only [Prod.mk.injEq] at hres
  obtain ⟨hb, hnn, htr⟩ := hres
  subst htr
  rcases List.mem_cons.mp hbc with h | h
  · cases h
  rcases List.mem_append.mp h with h | h
  · rcases List.mem_append.mp h with h | h
    · rcases List.mem_append.mp h with h | h
      · rcases List.mem_append.mp h with h | h
        · exact absurd (enrich_calls env base _ h) (by simp)
        · rcases List.mem_cons.mp h with h | h
          · cases h
          · cases List.mem_singleton.mp h
      · rcases List.mem_cons.mp h with h | h
        · -- the persisted build and stages
          injection h with hb2 hs2
          subst hs2
          constructor
          · intro hin
            rcases List.mem_cons.mp hin with h1 | h1
            · cases h1
            rcases List.mem_append.mp h1 with h1 | h1
            · rcases List.mem_append.mp h1 with h1 | h1
              · rcases List.mem_append.mp h1 with h1 | h1
                · rcases List.mem_append.mp h1 with h1 | h1
                  · exact absurd (enrich_calls env base _ h1) (by simp)
                  · rcases List.mem_cons.mp h1 with h1 | h1
                    · cases h1
                    · cases List.mem_singleton.mp h1
                · rcases List.mem_cons.mp h1 with h1 | h1
                  · cases h1
                  · cases List.mem_singleton.mp h1
              · obtain ⟨hm, hd, hnb⟩ := (scheduleAll_mem_of_none env _ hsched s).mp h1
                obtain ⟨hp2, hd2⟩ := (assemble_pending_iff _ _ _ _ _ s hm).mp ⟨hd, hnb⟩
                exact ⟨hm, hp2, hd2⟩
            · cases List.mem_singleton.mp h1
          · rintro ⟨hm, hp, hd⟩
            obtain ⟨hd', hnb⟩ := (assemble_pending_iff _ _ _ _ _ s hm).mpr ⟨hp, hd⟩
            have hsr := (scheduleAll_mem_of_none env _ hsched s).mpr ⟨hm, hd', hnb⟩
            exact List.mem_cons_of_mem _
              (List.mem_append.mpr (Or.inl (List.mem_append.mpr (Or.inr hsr))))
        · cases List.mem_singleton.mp h
    · obtain ⟨s', he, -⟩ := scheduleAll_calls env _ _ h
      cases he
  · cases List.mem_singleton.mp h

theorem sendAll_all_none (post : String → Option String) :
    ∀ l : List String, (∀ e ∈ l, post e = none) → sendAll post l = (l, none) := by
  intro l
  induction l with
  | nil => intro _; rfl
  | cons e rest ih =>
    intro h
    rw [sendAll, h e (List.mem_cons_self _ _), ih
      (fun x hx => h x (List.mem_cons_of_mem _ hx))]

theorem sendAll_first_error (post : String → Option String) (e err : String)
    (ys : List String) :
    ∀ xs : List String, (∀ x ∈ xs, post x = none) → post e = some err →
      sendAll post (xs ++ e :: ys) = (xs ++ [e], some err) := by
  intro xs
  induction xs with
  | nil =>
    intro _ he
    rw [List.nil_append, sendAll, he]
    rfl
  | cons x rest ih =>
    intro h he
    rw [List.cons_append, sendAll, h x (List.mem_cons_self _ _),
      ih (fun y hy => h y (List.mem_cons_of_mem _ hy)) he]
    rfl

/-- C10: Send returns nil immediately on an empty endpoint list with no
request made; otherwise it posts to the endpoints in list order and
returns the first per-endpoint error without attempting the remaining
endpoints. -/
theorem webhook_send_order_and_first_error (post : String → Option String)
    (s : Sender) :
    (s.Endpoints = [] → senderSend post s = ([], none)) ∧
    ((∀ e ∈ s.Endpoints, post e = none) →
      senderSend post s = (s.Endpoints, none)) ∧
    (∀ xs e err ys, s.Endpoints = xs ++ e :: ys →
      (∀ x ∈ xs, post x = none) → post e = some err →
      senderSend post s = (xs ++ [e], some err)) := by
  refine ⟨?_, ?_, ?_⟩
  · intro h
    unfold senderSend
    rw [h]
    rfl
  · intro h
    unfold senderSend
    by_cases hl : s.Endpoints.length = 0
    · rw [if_pos hl, List.length_eq_zero.mp hl]
    · rw [if_neg hl, sendAll_all_none post _ h]
  · intro xs e err ys hsplit h he
    unfold senderSend
    rw [hsplit]
    rw [if_neg (by simp)]
    exact sendAll_first_error post e err ys xs h he

/-! ## Witnesses -/

theorem stage_initial_status_spec_witness :
    stage1W.Status =
      (if (true : Bool) = false then statusBlocked
       else if stage1W.DependsOn = [] then statusPending
       else statusWaiting) :=
  stage_initial_status_spec true repoW2 hookW [pipeW, pipeDepW] envW.Now stage1W
    (by decide)

theorem schedule_exactly_pending_stages_witness :
    Call.schedule stage1W ∈ traceW ↔
      (stage1W ∈ stagesW ∧ stage1W.Status = statusPending ∧
        stage1W.DependsOn = []) :=
  schedule_exactly_pending_stages envW repoW hookW buildW traceW (by decide)
    buildW stagesW (by decide) stage1W

theorem config_failure_creates_error_build_witness :
    ∃ tr, trigger envErrW repoW hookW =
        (some (errBuild repoW2 (enrich envErrW hookW).1 "yaml: parse error"
          envErrW.Now), none, tr) ∧
      Call.buildCreate (errBuild repoW2 (enrich envErrW hookW).1
        "yaml: parse error" envErrW.Now) [] ∈ tr ∧
      (∀ s, Call.schedule s ∉ tr) ∧
      Call.statusSend ∉ tr ∧
      Call.webhookSend ∉ tr ∧
      (errBuild repoW2 (enrich envErrW hookW).1 "yaml: parse error"
        envErrW.Now).Status = statusError ∧
      (errBuild repoW2 (enrich envErrW hookW).1 "yaml: parse error"
        envErrW.Now).Error = "yaml: parse error" ∧
      (errBuild repoW2 (enrich envErrW hookW).1 "yaml: parse error"
        envErrW.Now).Finished = envErrW.Now :=
  config_failure_creates_error_build envErrW repoW hookW (by decide) (by decide)
    (by decide) userW rfl rfl "raw" rfl "raw" rfl "yaml: parse error"
    (Or.inl rfl) repoW2 rfl rfl

theorem no_match_skips_without_increment_witness :
    ∃ tr, trigger envNoMatchW repoW hookW = (none, none, tr) ∧
      Call.increment ∉ tr ∧ ∀ b st, Call.buildCreate b st ∉ tr :=
  no_match_skips_without_increment envNoMatchW repoW hookW (by decide) (by decide)
    (by decide) userW rfl rfl "raw" rfl "raw" rfl
    { Resources := [.pipeline pipeTagW] } rfl rfl (by decide)

theorem hook_gating_skips_witness :
    trigger envW repoW hookSkipW = (none, none, []) ∧
    trigger envW repoPullsW hookPRW = (none, none, []) ∧
    trigger envW repoForksW hookPRW = (none, none, []) :=
  ⟨(hook_gating_skips envW repoW hookSkipW).1 (by decide),
   (hook_gating_skips envW repoPullsW hookPRW).2.1 (by decide) (by decide),
   (hook_gating_skips envW repoForksW hookPRW).2.2 (by decide) (by decide)
     (by decide)⟩

theorem stage_on_success_on_failure_flags_witness :
    condMatch pipeW.Trigger.Status statusPassing = true :=
  (stage_on_success_on_failure_flags 1 true 0 0 pipeW).2.2 rfl rfl

theorem inactive_owner_skips_witness :
    trigger envInactiveW repoW hookW = (none, none, [Call.userFind]) :=
  inactive_owner_skips envInactiveW repoW hookW (by decide) (by decide) (by decide)
    userInactiveW rfl rfl

theorem webhook_send_order_and_first_error_witness :
    senderSend postW senderW =
      (["https://a.example", "https://b.example"], some "connection refused") :=
  (webhook_send_order_and_first_error postW senderW).2.2
    ["https://a.example"] "https://b.example" "connection refused"
    ["https://c.example"] rfl (by decide) (by decide)

end Drone
